import Mathlib

/-!
Shallow embedding of the Bollinger mean-reversion stock-picking pipeline
(`src/strategy/bollinger_mean_reversion.py`, the "orig" variant, and
`src/strategy/bollinger_mean_reversion_fixed.py`, the "fixed" variant, plus
`src/analysis/bollinger_bands.py`), with theorems checking the specified
behaviour of the signal classifier, composite scorer, trading-advice
generator, screening loop and portfolio allocator.

Python floats are embedded as exact rationals.  Where IEEE special values
matter (the unguarded band-position division can produce NaN or ±inf, and
every comparison against NaN is false), values are wrapped in the `FVal`
type below, which carries the NaN/±inf cases explicitly.
-/

namespace StockPicker

/-- A float value as seen by the classifier: either an ordinary (rational)
number, NaN, or ±infinity.  NaN arises from 0.0/0.0, ±inf from x/0.0 with
x ≠ 0 under numpy/pandas semantics. -/
inductive FVal : Type
  | num : ℚ → FVal
  | nan : FVal
  | pinf : FVal
  | ninf : FVal
deriving DecidableEq

namespace FVal

/-- IEEE-754 `<` as a Bool: any comparison involving NaN is false. -/
def lt : FVal → FVal → Bool
  | num a, num b => decide (a < b)
  | num _, pinf => true
  | ninf, num _ => true
  | ninf, pinf => true
  | _, _ => false

/-- IEEE-754 `≤` as a Bool: any comparison involving NaN is false. -/
def le : FVal → FVal → Bool
  | num a, num b => decide (a ≤ b)
  | num _, pinf => true
  | ninf, num _ => true
  | ninf, pinf => true
  | ninf, ninf => true
  | pinf, pinf => true
  | _, _ => false

/-- Float division of two (finite) values, with the numpy behaviour on a
zero denominator: 0/0 is NaN and x/0 is ±inf for x ≠ 0. -/
def fdiv (a b : ℚ) : FVal :=
  if b = 0 then
    if a = 0 then nan else if 0 < a then pinf else ninf
  else num (a / b)

theorem lt_asymm {a b : FVal} (h : lt a b = true) : lt b a = false := by
  cases a <;> cases b <;> simp_all [lt] <;> linarith

theorem le_of_lt_flip {a b : FVal} (h : lt a b = true) : le b a = false := by
  cases a <;> cases b <;> simp_all [lt, le] <;> linarith

end FVal

/-- One row of the indicator frame produced by `_calculate_all_indicators`
(the columns read downstream; `std`, `macd_histogram`, `volume_ma` and
`volatility` are computed but never read by the classifier or the advice
generator, so they are omitted).  The band columns appear as plain
rationals because they are only ever read at the latest row of a
≥50-point frame, where the 20-point rolling windows are filled. -/
structure FrameRow where
  close : ℚ
  ma : ℚ
  upper_band : ℚ
  lower_band : ℚ
  bb_position : FVal
  rsi : FVal
  macd : FVal
  macd_signal : FVal
  volume_ratio : FVal
  price_momentum : FVal
deriving DecidableEq

/-- Band-category signal labels (`bb_signals`); the if/elif chains in both
variants append at most one label. -/
inductive BandSig : Type
  | strongOversold      -- "强烈超跌"
  | oversoldRebound     -- "超跌反弹"
  | strongOverbought    -- "强烈超买"
  | overboughtPullback  -- "超买回调"
deriving DecidableEq

inductive RsiSig : Type
  | oversold            -- "RSI超卖"
  | overbought          -- "RSI超买"
deriving DecidableEq

inductive MacdSig : Type
  | golden              -- "MACD金叉"
  | death               -- "MACD死叉"
deriving DecidableEq

inductive MomSig : Type
  | up                  -- "价格动量向上"
  | down                -- "价格动量向下"
deriving DecidableEq

inductive Overall : Type
  | BUY
  | SELL
  | HOLD
deriving DecidableEq

/-- The signal dictionary built by `_analyze_signals`: each category list
holds at most one label (if/elif chains), so it is an `Option`. -/
structure SignalSet where
  bandSig : Option BandSig
  rsiSig : Option RsiSig
  macdSig : Option MacdSig
  volumeSpike : Bool
  momSig : Option MomSig
  overall : Overall
deriving DecidableEq

/-! ## Signal classifier, original variant
(`bollinger_mean_reversion.py`, `_analyze_signals`, lines 150-214;
thresholds from `_get_strategy_config`: rsi_oversold 15, rsi_overbought 85,
min_volume_ratio 0.8, momentum ±0.05). -/

def bandSigOrig (bp : FVal) : Option BandSig :=
  if FVal.le bp (.num 0.1) then some .strongOversold
  else if FVal.le bp (.num 0.2) then some .oversoldRebound
  else if FVal.le (.num 0.9) bp then some .strongOverbought
  else if FVal.le (.num 0.8) bp then some .overboughtPullback
  else none

def rsiSigOrig (r : FVal) : Option RsiSig :=
  if FVal.le r (.num 15) then some .oversold
  else if FVal.le (.num 85) r then some .overbought
  else none

/-- `latest['macd'] > latest['macd_signal'] and prev['macd'] <= prev['macd_signal']`. -/
def goldenCrossCond (latest prev : FrameRow) : Bool :=
  FVal.lt latest.macd_signal latest.macd && FVal.le prev.macd prev.macd_signal

/-- `latest['macd'] < latest['macd_signal'] and prev['macd'] >= prev['macd_signal']`. -/
def deathCrossCond (latest prev : FrameRow) : Bool :=
  FVal.lt latest.macd latest.macd_signal && FVal.le prev.macd_signal prev.macd

/-- MACD cross block, identical in both variants. -/
def macdCrossSig (latest prev : FrameRow) : Option MacdSig :=
  if goldenCrossCond latest prev then some .golden
  else if deathCrossCond latest prev then some .death
  else none

def volumeSpikeOrig (vr : FVal) : Bool := FVal.le (.num 0.8) vr

def momSigOrig (m : FVal) : Option MomSig :=
  if FVal.lt (.num 0.05) m then some .up
  else if FVal.lt m (.num (-0.05)) then some .down
  else none

/-- Original overall vote: `buy_signals` is the TOTAL number of band, RSI
and MACD labels regardless of direction; `sell_signals` is 1 when a
strong-overbought band label or an RSI-overbought label is present. -/
def overallOrig (band : Option BandSig) (rsi : Option RsiSig)
    (macd : Option MacdSig) : Overall :=
  let buy : ℕ := (if band.isSome then 1 else 0) + (if rsi.isSome then 1 else 0)
      + (if macd.isSome then 1 else 0)
  let sell : ℕ :=
    if band = some .strongOverbought ∨ rsi = some .overbought then 1 else 0
  if buy > sell then .BUY else if sell > buy then .SELL else .HOLD

def classifyOrig (latest prev : FrameRow) : SignalSet :=
  let band := bandSigOrig latest.bb_position
  let rsi := rsiSigOrig latest.rsi
  let macd := macdCrossSig latest prev
  { bandSig := band
    rsiSig := rsi
    macdSig := macd
    volumeSpike := volumeSpikeOrig latest.volume_ratio
    momSig := momSigOrig latest.price_momentum
    overall := overallOrig band rsi macd }

/-- `latest = data.iloc[-1]; prev = data.iloc[-2] if len(data) > 1 else latest`;
`none` models the IndexError that `iloc[-1]` raises on an empty frame
(unreachable from `analyze_stock`, which rejects short series first). -/
def analyzeSignalsOrig (frame : List FrameRow) : Option SignalSet :=
  match frame.getLast? with
  | none => none
  | some latest =>
    let prev := if 1 < frame.length
      then (frame.get? (frame.length - 2)).getD latest else latest
    some (classifyOrig latest prev)

/-! ## Signal classifier, fixed variant
(`bollinger_mean_reversion_fixed.py`, `_analyze_signals`, lines 169-240;
thresholds: rsi 30/70, min_volume_ratio 1.5, momentum ±0.02). -/

def bandSigFixed (bp : FVal) : Option BandSig :=
  if FVal.lt (.num 1) bp then some .strongOverbought
  else if FVal.lt bp (.num 0) then some .strongOversold
  else if FVal.lt (.num 0.8) bp then some .overboughtPullback
  else if FVal.lt bp (.num 0.2) then some .oversoldRebound
  else none

def rsiSigFixed (r : FVal) : Option RsiSig :=
  if FVal.lt (.num 70) r then some .overbought
  else if FVal.lt r (.num 30) then some .oversold
  else none

def volumeSpikeFixed (vr : FVal) : Bool := FVal.lt (.num 1.5) vr

def momSigFixed (m : FVal) : Option MomSig :=
  if FVal.lt (.num 0.02) m then some .up
  else if FVal.lt m (.num (-0.02)) then some .down
  else none

/-- Fixed overall vote: one bullish point per present category among
band-low-side, RSI-oversold, golden cross, volume spike and momentum-up;
`sell_signals` is 1 when strong-overbought or RSI-overbought is present. -/
def overallFixed (band : Option BandSig) (rsi : Option RsiSig)
    (macd : Option MacdSig) (vol : Bool) (mom : Option MomSig) : Overall :=
  let buy : ℕ :=
    (if band = some .strongOversold ∨ band = some .oversoldRebound then 1 else 0)
      + (if rsi = some .oversold then 1 else 0)
      + (if macd = some .golden then 1 else 0)
      + (if vol then 1 else 0)
      + (if mom = some .up then 1 else 0)
  let sell : ℕ :=
    if band = some .strongOverbought ∨ rsi = some .overbought then 1 else 0
  if buy > sell then .BUY else if sell > buy then .SELL else .HOLD

def classifyFixed (latest prev : FrameRow) : SignalSet :=
  let band := bandSigFixed latest.bb_position
  let rsi := rsiSigFixed latest.rsi
  let macd := macdCrossSig latest prev
  let vol := volumeSpikeFixed latest.volume_ratio
  let mom := momSigFixed latest.price_momentum
  { bandSig := band
    rsiSig := rsi
    macdSig := macd
    volumeSpike := vol
    momSig := mom
    overall := overallFixed band rsi macd vol mom }

def analyzeSignalsFixed (frame : List FrameRow) : Option SignalSet :=
  match frame.getLast? with
  | none => none
  | some latest =>
    let prev := if 1 < frame.length
      then (frame.get? (frame.length - 2)).getD latest else latest
    some (classifyFixed latest prev)

/-! ## Composite scorer
(`_calculate_composite_score`, byte-identical in both variants:
base 0.5, band weight 0.3 with 0.3·0.7 for the rebound label, RSI 0.2,
MACD 0.2, volume 0.15, momentum 0.15, capped at 1.0). -/

def compositeScore (s : SignalSet) : ℚ :=
  let score : ℚ := 0.5
  let score := if s.bandSig = some .strongOversold then score + 0.3
    else if s.bandSig = some .oversoldRebound then score + 0.3 * 0.7
    else score
  let score := if s.rsiSig = some .oversold then score + 0.2 else score
  let score := if s.macdSig = some .golden then score + 0.2 else score
  let score := if s.volumeSpike then score + 0.15 else score
  let score := if s.momSig = some .up then score + 0.15 else score
  min score 1

/-! ## Trading-advice generator -/

inductive HoldPeriod : Type
  | long
  | medium
  | short
deriving DecidableEq

inductive RiskLevel : Type
  | low
  | medium
  | high
deriving DecidableEq

structure Advice where
  action : Overall
  confidence : ℚ
  target_price : ℚ
  stop_loss : ℚ
  position_size : ℚ
  holding_period : HoldPeriod
  risk_level : RiskLevel
  reasoning : List String
deriving DecidableEq

/-- The band geometry dict handed to the advice generator (the original
variant keys it bb_upper/bb_middle/bb_lower, the fixed one
upper/middle/lower; same three floats). -/
structure BBData where
  upper : ℚ
  middle : ℚ
  lower : ℚ
deriving DecidableEq

/-- Signal labels as emitted into the `reasoning` list. -/
def bandLabel : BandSig → String
  | .strongOversold => "强烈超跌"
  | .oversoldRebound => "超跌反弹"
  | .strongOverbought => "强烈超买"
  | .overboughtPullback => "超买回调"

def rsiLabel : RsiSig → String
  | .oversold => "RSI超卖"
  | .overbought => "RSI超买"

def macdLabel : MacdSig → String
  | .golden => "MACD金叉"
  | .death => "MACD死叉"

def momLabel : MomSig → String
  | .up => "价格动量向上"
  | .down => "价格动量向下"

/-- `for signal_type, signal_list in signals.items(): ... extend(signal_list)`
over the dict in insertion order bb, rsi, macd, volume, momentum
(`overall_signal` excluded by name). -/
def reasoningOf (s : SignalSet) : List String :=
  (s.bandSig.map bandLabel).toList ++ (s.rsiSig.map rsiLabel).toList
    ++ (s.macdSig.map macdLabel).toList
    ++ (if s.volumeSpike then ["成交量放大"] else [])
    ++ (s.momSig.map momLabel).toList

/-- `_assess_risk_level`, identical in both variants. -/
def assessRiskLevel (s : SignalSet) : RiskLevel :=
  let rf : ℕ := (if s.volumeSpike then 1 else 0)
    + (if s.macdSig = some .golden then 1 else 0)
    + (if s.momSig = some .up then 1 else 0)
  if rf ≥ 2 then .low else if rf ≥ 1 then .medium else .high

/-- `_estimate_holding_period`, identical in both variants. -/
def estimateHoldingPeriod (s : SignalSet) : HoldPeriod :=
  if s.bandSig = some .strongOversold then .long
  else if s.bandSig = some .oversoldRebound then .medium
  else .short

/-- `max_position_ratio` from `_get_strategy_config` (both variants). -/
def maxPositionCfg : ℚ := 0.1

/-- `confidence_threshold` of the original variant. -/
def confidenceThresholdOrig : ℚ := 0.5

/-- `confidence_threshold` of the fixed variant. -/
def confidenceThresholdFixed : ℚ := 0.7

/-- The advice dict as initialised before the BUY branch (both variants). -/
def defaultAdvice (s : SignalSet) (score : ℚ) : Advice :=
  { action := s.overall
    confidence := score
    target_price := 0
    stop_loss := 0
    position_size := 0
    holding_period := .medium
    risk_level := .medium
    reasoning := [] }

/-- `_calculate_target_price` of the original variant, with the
`bb_position` value that `_generate_trading_advice` injected into the
signal dict (a numpy float64, possibly NaN/±inf, hence `FVal`);
`current_price`/`bb_data` are non-None at both call sites, and `bb_data`
always carries the bb_middle key, so the `.get` defaults never fire.  On
NaN both threshold comparisons are false and the neutral-zone formula
applies. -/
def targetPriceOrig (bbp : FVal) (cp : ℚ) (bb : BBData) : ℚ :=
  if FVal.le bbp (.num 0.2) then bb.middle
  else if FVal.le (.num 0.8) bbp then bb.middle
  else cp * 1.05

/-- `_calculate_stop_loss` of the original variant (same NaN-neutral
float comparisons). -/
def stopLossOrig (bbp : FVal) (risk : RiskLevel) (cp : ℚ) (bb : BBData) : ℚ :=
  let ratio : ℚ := match risk with
    | .low => 0.05
    | .medium => 0.08
    | .high => 0.12
  if FVal.le bbp (.num 0.2) then bb.lower
  else if FVal.le (.num 0.8) bbp then bb.upper
  else cp * (1 - ratio)

/-- `_calculate_position_size` of the original variant. -/
def positionSizeOrig (score : ℚ) : ℚ := maxPositionCfg * score

/-- `_generate_trading_advice` of the original variant.  The BUY branch
recomputes `bb_position = (cp - bb_lower) / (bb_upper - bb_lower)` on
numpy float64 scalars taken from `.iloc[-1]`: division by zero does not
raise there, it yields NaN (0/0) or ±inf, which the target/stop threshold
comparisons then treat like any float — so the function is total and a
coincident-band BUY row still gets a non-default advice through the
neutral-zone formulas. -/
def generateTradingAdviceOrig (s : SignalSet) (score cp : ℚ) (bb : BBData) :
    Advice :=
  if s.overall = .BUY ∧ confidenceThresholdOrig ≤ score then
    let bbp := FVal.fdiv (cp - bb.lower) (bb.upper - bb.lower)
    let risk := assessRiskLevel s
    { defaultAdvice s score with
      target_price := targetPriceOrig bbp cp bb
      stop_loss := stopLossOrig bbp risk cp bb
      position_size := positionSizeOrig score
      holding_period := estimateHoldingPeriod s
      risk_level := risk
      reasoning := reasoningOf s }
  else defaultAdvice s score

/-- Python 3 `round(x, ndigits)` on the exact value: round half to even. -/
def roundHalfEven (x : ℚ) : ℤ :=
  if x - ⌊x⌋ < 1 / 2 then ⌊x⌋
  else if 1 / 2 < x - ⌊x⌋ then ⌊x⌋ + 1
  else if ⌊x⌋ % 2 = 0 then ⌊x⌋ else ⌊x⌋ + 1

def pyRound (ndigits : ℕ) (x : ℚ) : ℚ :=
  let m : ℚ := (10 : ℚ) ^ ndigits
  (roundHalfEven (x * m) : ℚ) / m

/-- `_calculate_target_price` of the fixed variant; `not current_price` is
true for the float 0.0, and the `middle` key is always present. -/
def targetPriceFixed (s : SignalSet) (cp : ℚ) (bb : BBData) : ℚ :=
  if cp = 0 then 0
  else if s.bandSig = some .strongOversold then pyRound 2 bb.middle
  else if s.bandSig = some .oversoldRebound then pyRound 2 (bb.middle * 1.05)
  else if s.bandSig = some .strongOverbought then pyRound 2 bb.middle
  else pyRound 2 (cp * 1.15)

/-- `stop_loss` from `_get_strategy_config` (both variants). -/
def stopLossCfg : ℚ := 0.08

/-- `_calculate_stop_loss` of the fixed variant. -/
def stopLossFixed (s : SignalSet) (cp : ℚ) : ℚ :=
  if cp = 0 then 0
  else
    let ratio :=
      if s.bandSig = some .strongOversold then stopLossCfg * 0.8
      else if s.bandSig = some .strongOverbought then stopLossCfg * 1.2
      else stopLossCfg
    pyRound 2 (cp * (1 - ratio))

/-- `_calculate_position_size` of the fixed variant. -/
def positionSizeFixed (score : ℚ) : ℚ := pyRound 3 (maxPositionCfg * score)

/-- `_generate_trading_advice` of the fixed variant (no division, total). -/
def generateTradingAdviceFixed (s : SignalSet) (score cp : ℚ) (bb : BBData) :
    Advice :=
  if s.overall = .BUY ∧ confidenceThresholdFixed ≤ score then
    { defaultAdvice s score with
      target_price := targetPriceFixed s cp bb
      stop_loss := stopLossFixed s cp
      position_size := positionSizeFixed score
      holding_period := estimateHoldingPeriod s
      risk_level := assessRiskLevel s
      reasoning := reasoningOf s }
  else defaultAdvice s score

/-! ## Per-stock analysis and screening -/

/-- A row of the input price series (only the columns the analysed methods
read; the indicator engine consumes the whole row through the `calc`
parameter below). -/
structure PriceRow where
  close : ℚ
  volume : ℚ
deriving DecidableEq

/-- The analysis record built by `analyze_stock`.  `analysis_date`
(wall-clock) and `risk_metrics` (√252-scaled statistics, irrational) are
outside the rational embedding and are omitted; nothing proved here reads
them. -/
structure ScoredCandidate where
  stock_code : String
  current_price : ℚ
  bb_position : FVal
  rsi : FVal
  macd_signal_val : FVal
  volume_ratio : FVal
  signals : SignalSet
  composite_score : ℚ
  trading_advice : Advice
deriving DecidableEq

/-- `analyze_stock` of the original variant.  The indicator engine
(`_calculate_all_indicators`: rolling std, EWMs — irrational over ℚ) is a
parameter `engine`; every claim about this function holds for an
arbitrary engine.  `none` models the empty dict `{}` (short series or
empty frame); the per-row computations below are total — in particular a
coincident-band BUY row produces NaN inside the advice generator, not an
exception — so the except-handler path does not arise here. -/
def analyzeStockOrig (engine : List PriceRow → List FrameRow)
    (stockCode : String) (data : List PriceRow) : Option ScoredCandidate :=
  if data.length < 50 then none
  else
    let frame := engine data
    if frame = [] then none
    else
      match analyzeSignalsOrig frame, frame.getLast? with
      | some signals, some latest =>
        let score := compositeScore signals
        let bb : BBData := ⟨latest.upper_band, latest.ma, latest.lower_band⟩
        some { stock_code := stockCode
               current_price := latest.close
               bb_position := latest.bb_position
               rsi := latest.rsi
               macd_signal_val := latest.macd_signal
               volume_ratio := latest.volume_ratio
               signals := signals
               composite_score := score
               trading_advice :=
                 generateTradingAdviceOrig signals score latest.close bb }
      | _, _ => none

/-- Python `str.zfill(6)` for the unsigned stock-code strings this
pipeline formats (the sign-aware padding of `zfill` never fires on them). -/
def zfill6 (s : String) : String :=
  if s.length < 6 then String.mk (List.replicate (6 - s.length) '0') ++ s else s

/-- First maximal digit run of the string, as `re.findall(r"\d+", code)[0]`. -/
def firstDigitRun : List Char → Option (List Char)
  | [] => none
  | c :: cs =>
    if c.isDigit then some (c :: cs.takeWhile Char.isDigit)
    else firstDigitRun cs

/-- `_format_stock_code` of the fixed variant. -/
def formatStockCode (s : String) : String :=
  let code := s.trim
  if code ≠ "" ∧ code.toList.all Char.isDigit then zfill6 code
  else
    match firstDigitRun code.toList with
    | some run => zfill6 (String.mk run)
    | none => zfill6 code

/-- `analyze_stock` of the fixed variant.  After the length guard it
builds `bb_data` from columns `bb_upper` / `bb_middle` / `bb_lower`, which
`_calculate_all_indicators` never creates (its `BollingerBands.calculate`
writes `ma` / `upper_band` / `lower_band`): pandas raises KeyError, the
handler returns `{}` — hence `none` for every frame the engine can
produce. -/
def analyzeStockFixed (engine : List PriceRow → List FrameRow)
    (stockCode : String) (data : List PriceRow) : Option ScoredCandidate :=
  if data.length < 50 then none
  else
    let frame := engine data
    if frame = [] then none
    else none

/-- The filtering loop of `screen_stocks` (original variant): keep results
that are truthy, have action BUY and composite score at or above the
confidence threshold, in input order (the sort comes after). -/
def screenCollectOrig (engine : List PriceRow → List FrameRow) :
    List (String × List PriceRow) → List ScoredCandidate
  | [] => []
  | (code, data) :: rest =>
    let tail := screenCollectOrig engine rest
    match analyzeStockOrig engine code data with
    | none => tail
    | some a =>
      if a.trading_advice.action = .BUY ∧
          confidenceThresholdOrig ≤ a.composite_score then a :: tail else tail

/-- `results.sort(key=lambda x: x['composite_score'], reverse=True)`:
a stable sort, descending by composite score (insertion sort). -/
def insertScoreDesc (c : ScoredCandidate) :
    List ScoredCandidate → List ScoredCandidate
  | [] => [c]
  | x :: xs =>
    if x.composite_score < c.composite_score then c :: x :: xs
    else x :: insertScoreDesc c xs

def sortScoreDesc : List ScoredCandidate → List ScoredCandidate
  | [] => []
  | x :: xs => insertScoreDesc x (sortScoreDesc xs)

/-- `screen_stocks` of the original variant (the stock dict is an
association list in iteration order). -/
def screenStocksOrig (engine : List PriceRow → List FrameRow)
    (stocks : List (String × List PriceRow)) : List ScoredCandidate :=
  sortScoreDesc (screenCollectOrig engine stocks)

/-! ## Portfolio allocator -/

/-- One entry of the `positions` list (identical shape in both variants). -/
structure Position where
  stock_code : String
  current_price : ℚ
  weight : ℚ
  position_size : ℚ
  target_price : ℚ
  stop_loss : ℚ
  confidence : ℚ
  risk_level : RiskLevel
  holding_period : HoldPeriod
deriving DecidableEq

def mkPosition (w : ℚ) (c : ScoredCandidate) : Position :=
  { stock_code := c.stock_code
    current_price := c.current_price
    weight := w
    position_size := c.trading_advice.position_size
    target_price := c.trading_advice.target_price
    stop_loss := c.trading_advice.stop_loss
    confidence := c.composite_score
    risk_level := c.trading_advice.risk_level
    holding_period := c.trading_advice.holding_period }

/-- The portfolio dict of the original variant (the `risk_metrics`
averages it also carries are not read by anything proved here and are
omitted). -/
structure PortfolioOrig where
  total_positions : ℕ
  total_score : ℚ
  positions : List Position
deriving DecidableEq

/-- Outcome of the original `generate_portfolio_recommendation`: the empty
dict for an empty input, a portfolio, or an uncaught ZeroDivisionError
from the unguarded `weight = score / total_score`. -/
inductive AllocResultOrig : Type
  | empty
  | portfolio (p : PortfolioOrig)
  | zeroDivisionError
deriving DecidableEq

/-- `generate_portfolio_recommendation` of the original variant: no sort
(its callers pass the already-sorted screening output), top
`max_positions`, weight `score / total_score` with NO zero-total guard. -/
def generatePortfolioRecommendationOrig (screened : List ScoredCandidate)
    (maxPositions : ℕ) : AllocResultOrig :=
  if screened = [] then .empty
  else
    let selected := screened.take maxPositions
    let total := (selected.map (·.composite_score)).sum
    if selected ≠ [] ∧ total = 0 then .zeroDivisionError
    else .portfolio
      { total_positions := selected.length
        total_score := total
        positions := selected.map (fun c =>
          mkPosition (c.composite_score / total) c) }

structure PortfolioFixed where
  positions : List Position
  total_positions : ℕ
deriving DecidableEq

/-- `generate_portfolio_recommendation` of the fixed variant: weight
`score / total_score if total_score > 0 else 1.0 / len(top_stocks)`. -/
def generatePortfolioRecommendationFixed (screened : List ScoredCandidate)
    (maxPositions : ℕ) : PortfolioFixed :=
  if screened = [] then { positions := [], total_positions := 0 }
  else
    let top := screened.take maxPositions
    let total := (top.map (·.composite_score)).sum
    let positions := top.map (fun c =>
      mkPosition (if 0 < total then c.composite_score / total
        else 1 / (top.length : ℚ)) c)
    { positions := positions, total_positions := positions.length }

/-! ## Bollinger band position (`bollinger_bands.py`, line 40) -/

def listMean (w : List ℚ) : ℚ := w.sum / (w.length : ℚ)

/-- pandas `rolling(period).std()` defaults to the sample standard
deviation (ddof = 1); only its vanishing matters below, so its square is
embedded (rational, where the std itself is not). -/
def sampleVariance (w : List ℚ) : ℚ :=
  ((w.map (fun x => (x - listMean w) ^ 2)).sum) / ((w.length : ℚ) - 1)

/-- `bb_position = (close - lower_band) / (upper_band - lower_band)` with
numpy division semantics (no divide-by-zero guard in the source). -/
def bbPositionF (close lower upper : ℚ) : FVal :=
  FVal.fdiv (close - lower) (upper - lower)

/-! ## Spec-side definitions (for refinement comparison only)

These two are written from the CLAIM wording, not from the source, and are
compared against the source-derived definitions above. -/

/-- The bonus table as the claim words it: +0.30 STRONG_OVERSOLD (else
+0.21 OVERSOLD_REBOUND), +0.20 RSI_OVERSOLD, +0.20 GOLDEN_CROSS,
+0.15 VOLUME_SPIKE, +0.15 MOMENTUM_UP. -/
def claimBonus (s : SignalSet) : ℚ :=
  (if s.bandSig = some .strongOversold then 0.30
   else if s.bandSig = some .oversoldRebound then 0.21 else 0)
  + (if s.rsiSig = some .oversold then 0.20 else 0)
  + (if s.macdSig = some .golden then 0.20 else 0)
  + (if s.volumeSpike then 0.15 else 0)
  + (if s.momSig = some .up then 0.15 else 0)

/-- The overall vote as the claim words it: bullish = number of present
categories among band-low-side, RSI-oversold, golden-cross; bearish =
number of present categories among band-high-side, RSI-overbought; BUY iff
bullish > bearish, SELL iff bearish > bullish, else HOLD. -/
def claimOverall (s : SignalSet) : Overall :=
  let bullish : ℕ :=
    (if s.bandSig = some .strongOversold ∨ s.bandSig = some .oversoldRebound
      then 1 else 0)
    + (if s.rsiSig = some .oversold then 1 else 0)
    + (if s.macdSig = some .golden then 1 else 0)
  let bearish : ℕ :=
    (if s.bandSig = some .strongOverbought ∨
        s.bandSig = some .overboughtPullback then 1 else 0)
    + (if s.rsiSig = some .overbought then 1 else 0)
  if bullish > bearish then .BUY
  else if bearish > bullish then .SELL
  else .HOLD

/-! ## Helper lemmas -/

theorem claimBonus_nonneg (s : SignalSet) : 0 ≤ claimBonus s := by
  unfold claimBonus
  split_ifs <;> norm_num

theorem compositeScore_eq_min (s : SignalSet) :
    compositeScore s = min (0.5 + claimBonus s) 1 := by
  unfold compositeScore claimBonus
  split_ifs <;> norm_num

theorem compositeScore_ge_half (s : SignalSet) : 0.5 ≤ compositeScore s := by
  rw [compositeScore_eq_min]
  exact le_min (by linarith [claimBonus_nonneg s]) (by norm_num)

theorem compositeScore_le_one (s : SignalSet) : compositeScore s ≤ 1 := by
  rw [compositeScore_eq_min]; exact min_le_right _ _

theorem goldenCross_excludes_death {l p : FrameRow}
    (h : goldenCrossCond l p = true) : deathCrossCond l p = false := by
  unfold goldenCrossCond at h
  simp only [Bool.and_eq_true] at h
  unfold deathCrossCond
  rw [FVal.lt_asymm h.1, Bool.false_and]

theorem analyzeSignalsOrig_two (frame : List FrameRow) (latest prev : FrameRow)
    (h2 : 2 ≤ frame.length) (hl : frame.getLast? = some latest)
    (hp : frame.get? (frame.length - 2) = some prev) :
    analyzeSignalsOrig frame = some (classifyOrig latest prev) := by
  unfold analyzeSignalsOrig
  rw [hl]
  have h1 : 1 < frame.length := by omega
  rw [List.get?_eq_getElem?] at hp
  simp [h1, hp]

theorem analyzeSignalsFixed_two (frame : List FrameRow) (latest prev : FrameRow)
    (h2 : 2 ≤ frame.length) (hl : frame.getLast? = some latest)
    (hp : frame.get? (frame.length - 2) = some prev) :
    analyzeSignalsFixed frame = some (classifyFixed latest prev) := by
  unfold analyzeSignalsFixed
  rw [hl]
  have h1 : 1 < frame.length := by omega
  rw [List.get?_eq_getElem?] at hp
  simp [h1, hp]

theorem macdCrossSig_golden_iff (l p : FrameRow) :
    (macdCrossSig l p = some .golden ↔ goldenCrossCond l p = true) := by
  unfold macdCrossSig
  split_ifs with hg hd <;> simp_all

theorem macdCrossSig_death_iff (l p : FrameRow) :
    (macdCrossSig l p = some .death ↔ deathCrossCond l p = true) := by
  unfold macdCrossSig
  split_ifs with hg hd
  · simp [goldenCross_excludes_death hg]
  · simp [hd]
  · simp [hd]

theorem macdCrossSig_self (r : FrameRow) : macdCrossSig r r = none := by
  have hg : goldenCrossCond r r = false := by
    unfold goldenCrossCond
    cases hlt : FVal.lt r.macd_signal r.macd
    · rw [Bool.false_and]
    · rw [FVal.le_of_lt_flip hlt, Bool.and_false]
  have hd : deathCrossCond r r = false := by
    unfold deathCrossCond
    cases hlt : FVal.lt r.macd r.macd_signal
    · rw [Bool.false_and]
    · rw [FVal.le_of_lt_flip hlt, Bool.and_false]
  unfold macdCrossSig
  rw [hg, hd]
  rfl

/-! ## C1 — composite score -/

/-- C1: for every signal set, the composite score equals
min(0.5 + bonuses, 1.0) with bonuses +0.30 STRONG_OVERSOLD (else +0.21
OVERSOLD_REBOUND), +0.20 RSI_OVERSOLD, +0.20 GOLDEN_CROSS, +0.15
VOLUME_SPIKE, +0.15 MOMENTUM_UP; the result lies in [0, 1], and no bearish
signal subtracts (the score never drops below the 0.5 base). -/
theorem c1_composite_score_spec (s : SignalSet) :
    compositeScore s = min (0.5 + claimBonus s) 1 ∧
    0 ≤ compositeScore s ∧ compositeScore s ≤ 1 ∧
    0.5 ≤ compositeScore s := by
  refine ⟨compositeScore_eq_min s, ?_, compositeScore_le_one s,
    compositeScore_ge_half s⟩
  have := compositeScore_ge_half s
  linarith

/-! ## C2 — overall vote -/

/-- A frame row whose only signal is a strong-overbought band reading:
the original classifier counts it as one BUY vote (it counts every band
label, bearish included) and one SELL vote, giving HOLD, while the
claim's category vote gives SELL. -/
def rowC2orig : FrameRow :=
  { close := 10, ma := 10, upper_band := 12, lower_band := 8
    bb_position := .num 0.95, rsi := .num 50, macd := .num 0
    macd_signal := .num 0, volume_ratio := .num 0, price_momentum := .num 0 }

/-- Latest row for the fixed-variant counterexample: golden cross plus
strong-overbought band plus RSI overbought. -/
def rowC2fixed : FrameRow :=
  { close := 10, ma := 10, upper_band := 12, lower_band := 8
    bb_position := .num 1.5, rsi := .num 80, macd := .num 1
    macd_signal := .num 0, volume_ratio := .num 0, price_momentum := .num 0 }

def rowC2fixedPrev : FrameRow := { rowC2fixed with macd := .num (-1) }

/-- C2 (counterexample): the overall signal is NOT the claimed majority
vote over category presence.  Original variant: a lone strong-overbought
band label yields HOLD where the claimed vote yields SELL (the code counts
the bearish band label as a bullish vote).  Fixed variant: golden cross +
strong overbought + RSI overbought yields HOLD where the claimed vote
yields SELL (the code caps the bearish count at 1 and counts volume and
momentum as bullish categories). -/
theorem c2_counterexample :
    (classifyOrig rowC2orig rowC2orig).overall = .HOLD ∧
    claimOverall (classifyOrig rowC2orig rowC2orig) = .SELL ∧
    (classifyFixed rowC2fixed rowC2fixedPrev).overall = .HOLD ∧
    claimOverall (classifyFixed rowC2fixed rowC2fixedPrev) = .SELL := by
  refine ⟨?_, ?_, ?_, ?_⟩ <;>
    norm_num [classifyOrig, classifyFixed, claimOverall, bandSigOrig,
      rsiSigOrig, bandSigFixed, rsiSigFixed, macdCrossSig, goldenCrossCond,
      deathCrossCond, volumeSpikeOrig, volumeSpikeFixed, momSigOrig,
      momSigFixed, overallOrig, overallFixed, rowC2orig, rowC2fixed,
      rowC2fixedPrev, FVal.le, FVal.lt] <;> decide

/-- C2 (amended): in the original variant the bullish count is the TOTAL
number of band, RSI and MACD labels present regardless of direction; in
the fixed variant it is the number of present categories among
band-low-side, RSI-oversold, golden cross, volume spike and momentum-up;
in both variants the bearish count is 1 if a strong-overbought band label
or RSI-overbought is present and 0 otherwise (overbought-pullback never
counts, and two bearish categories still count as 1); overall is BUY iff
bullish > bearish, SELL iff bearish > bullish, else HOLD. -/
theorem c2_overall_vote_amended (latest prev : FrameRow) :
    ((classifyOrig latest prev).overall =
      (let s := classifyOrig latest prev
       let buy : ℕ := (if s.bandSig.isSome then 1 else 0)
         + (if s.rsiSig.isSome then 1 else 0)
         + (if s.macdSig.isSome then 1 else 0)
       let sell : ℕ := if s.bandSig = some .strongOverbought ∨
           s.rsiSig = some .overbought then 1 else 0
       if buy > sell then .BUY else if sell > buy then .SELL else .HOLD)) ∧
    ((classifyFixed latest prev).overall =
      (let s := classifyFixed latest prev
       let buy : ℕ := (if s.bandSig = some .strongOversold ∨
             s.bandSig = some .oversoldRebound then 1 else 0)
         + (if s.rsiSig = some .oversold then 1 else 0)
         + (if s.macdSig = some .golden then 1 else 0)
         + (if s.volumeSpike then 1 else 0)
         + (if s.momSig = some .up then 1 else 0)
       let sell : ℕ := if s.bandSig = some .strongOverbought ∨
           s.rsiSig = some .overbought then 1 else 0
       if buy > sell then .BUY else if sell > buy then .SELL else .HOLD)) :=
  ⟨rfl, rfl⟩

/-! ## C6 — MACD cross detection -/

/-- C6: on any frame with at least two rows, both variants emit the golden
cross exactly when macd moves from ≤ signal on the previous row to >
signal on the latest row (under float comparison semantics), the death
cross exactly on the mirror transition, and never a golden cross when macd
was already above the signal line on the previous row. -/
theorem c6_macd_cross_transition (frame : List FrameRow)
    (latest prev : FrameRow) (h2 : 2 ≤ frame.length)
    (hl : frame.getLast? = some latest)
    (hp : frame.get? (frame.length - 2) = some prev) :
    (analyzeSignalsOrig frame = some (classifyOrig latest prev) ∧
      ((classifyOrig latest prev).macdSig = some .golden ↔
        (FVal.lt latest.macd_signal latest.macd = true ∧
          FVal.le prev.macd prev.macd_signal = true)) ∧
      ((classifyOrig latest prev).macdSig = some .death ↔
        (FVal.lt latest.macd latest.macd_signal = true ∧
          FVal.le prev.macd_signal prev.macd = true)) ∧
      (FVal.lt prev.macd_signal prev.macd = true →
        (classifyOrig latest prev).macdSig ≠ some .golden)) ∧
    (analyzeSignalsFixed frame = some (classifyFixed latest prev) ∧
      ((classifyFixed latest prev).macdSig = some .golden ↔
        (FVal.lt latest.macd_signal latest.macd = true ∧
          FVal.le prev.macd prev.macd_signal = true)) ∧
      ((classifyFixed latest prev).macdSig = some .death ↔
        (FVal.lt latest.macd latest.macd_signal = true ∧
          FVal.le prev.macd_signal prev.macd = true)) ∧
      (FVal.lt prev.macd_signal prev.macd = true →
        (classifyFixed latest prev).macdSig ≠ some .golden)) := by
  have hOrig : (classifyOrig latest prev).macdSig = macdCrossSig latest prev := rfl
  have hFixed : (classifyFixed latest prev).macdSig = macdCrossSig latest prev := rfl
  have hgold := macdCrossSig_golden_iff latest prev
  have hdeath := macdCrossSig_death_iff latest prev
  have hcondg : (goldenCrossCond latest prev = true) ↔
      (FVal.lt latest.macd_signal latest.macd = true ∧
        FVal.le prev.macd prev.macd_signal = true) := by
    unfold goldenCrossCond; exact iff_of_eq (Bool.and_eq_true _ _)
  have hcondd : (deathCrossCond latest prev = true) ↔
      (FVal.lt latest.macd latest.macd_signal = true ∧
        FVal.le prev.macd_signal prev.macd = true) := by
    unfold deathCrossCond; exact iff_of_eq (Bool.and_eq_true _ _)
  have hnab : FVal.lt prev.macd_signal prev.macd = true →
      macdCrossSig latest prev ≠ some .golden := by
    intro habove hcontra
    have hcond := hgold.mp hcontra
    unfold goldenCrossCond at hcond
    simp only [Bool.and_eq_true] at hcond
    have hfl := FVal.le_of_lt_flip habove
    rw [hcond.2] at hfl
    exact absurd hfl (by simp)
  exact ⟨⟨analyzeSignalsOrig_two frame latest prev h2 hl hp,
      by rw [hOrig, hgold]; exact hcondg,
      by rw [hOrig, hdeath]; exact hcondd,
      fun h => by rw [hOrig]; exact hnab h⟩,
    ⟨analyzeSignalsFixed_two frame latest prev h2 hl hp,
      by rw [hFixed, hgold]; exact hcondg,
      by rw [hFixed, hdeath]; exact hcondd,
      fun h => by rw [hFixed]; exact hnab h⟩⟩

/-- Frame for the C6 witness: macd crosses its signal line between the
two rows. -/
def rowC6prev : FrameRow :=
  { close := 10, ma := 10, upper_band := 12, lower_band := 8
    bb_position := .num 0.5, rsi := .num 50, macd := .num (-1)
    macd_signal := .num 0, volume_ratio := .num 0, price_momentum := .num 0 }

def rowC6latest : FrameRow := { rowC6prev with macd := .num 1 }

def frameC6 : List FrameRow := [rowC6prev, rowC6latest]

theorem c6_witness :
    (analyzeSignalsOrig frameC6).map SignalSet.macdSig =
      some (some .golden) := by
  obtain ⟨⟨hs, hg, _, _⟩, _⟩ :=
    c6_macd_cross_transition frameC6 rowC6latest rowC6prev
      (by norm_num [frameC6]) rfl rfl
  rw [hs]
  have h1 : FVal.lt rowC6latest.macd_signal rowC6latest.macd = true := by
    norm_num [rowC6latest, rowC6prev, FVal.lt]
  have h2 : FVal.le rowC6prev.macd rowC6prev.macd_signal = true := by
    norm_num [rowC6prev, FVal.le]
  simp [hg.mpr ⟨h1, h2⟩]

/-! ## C10 — single-row frame and cross exclusivity -/

/-- C10: on a one-row frame the classifier uses the latest row as its own
previous row, emits no MACD cross and does not raise; and in any single
classification the golden-cross and death-cross conditions are mutually
exclusive. -/
theorem c10_single_row (frame : List FrameRow) (r : FrameRow)
    (h : frame = [r]) :
    (analyzeSignalsOrig frame = some (classifyOrig r r) ∧
      (classifyOrig r r).macdSig = none) ∧
    (∀ l p : FrameRow,
      ¬(goldenCrossCond l p = true ∧ deathCrossCond l p = true)) := by
  subst h
  refine ⟨⟨rfl, ?_⟩, ?_⟩
  · show macdCrossSig r r = none
    exact macdCrossSig_self r
  · rintro l p ⟨hg, hd⟩
    unfold goldenCrossCond at hg
    unfold deathCrossCond at hd
    simp only [Bool.and_eq_true] at hg hd
    obtain ⟨hg1, _⟩ := hg
    obtain ⟨hd1, _⟩ := hd
    have := FVal.lt_asymm hg1
    rw [hd1] at this
    exact absurd this (by simp)

theorem c10_witness :
    (analyzeSignalsOrig [rowC6prev] = some (classifyOrig rowC6prev rowC6prev) ∧
      (classifyOrig rowC6prev rowC6prev).macdSig = none) ∧
    ¬(goldenCrossCond rowC6prev rowC6prev = true ∧
      deathCrossCond rowC6prev rowC6prev = true) := by
  obtain ⟨h1, h2⟩ := c10_single_row [rowC6prev] rowC6prev rfl
  exact ⟨h1, h2 rowC6prev rowC6prev⟩

/-! ## C4 — short series -/

/-- C4: for every input series that is empty or shorter than the 50-point
minimum, `analyze_stock` of both variants returns the empty result without
raising, for any indicator engine; no candidate record is produced. -/
theorem c4_short_series (engine : List PriceRow → List FrameRow)
    (stockCode : String) (data : List PriceRow) (h : data.length < 50) :
    analyzeStockOrig engine stockCode data = none ∧
    analyzeStockFixed engine stockCode data = none := by
  unfold analyzeStockOrig analyzeStockFixed
  rw [if_pos h, if_pos h]
  exact ⟨rfl, rfl⟩

theorem c4_witness :
    analyzeStockOrig (fun _ => []) "000001" [] = none ∧
    analyzeStockFixed (fun _ => []) "000001" [] = none :=
  c4_short_series (fun _ => []) "000001" [] (by norm_num)

/-! ## C7 — advice gating -/

/-- C7: both variants produce a non-default advice (non-zero target
price, stop loss or position size) only when the overall signal is BUY
and the score reaches the configured confidence threshold (0.5 original,
0.7 fixed); in every other case they return the advice carrying the
overall action with target price, stop loss and position size all 0.
Both generators are total — in particular the original's BUY branch on
coincident bands computes a NaN band position and still returns an
advice through the neutral-zone formulas, so no input is excluded. -/
theorem c7_advice_gating (s : SignalSet) (score cp : ℚ) (bb : BBData) :
    (¬(s.overall = .BUY ∧ confidenceThresholdOrig ≤ score) →
      generateTradingAdviceOrig s score cp bb = defaultAdvice s score) ∧
    (((generateTradingAdviceOrig s score cp bb).target_price ≠ 0 ∨
      (generateTradingAdviceOrig s score cp bb).stop_loss ≠ 0 ∨
      (generateTradingAdviceOrig s score cp bb).position_size ≠ 0) →
      s.overall = .BUY ∧ confidenceThresholdOrig ≤ score) ∧
    (¬(s.overall = .BUY ∧ confidenceThresholdFixed ≤ score) →
      generateTradingAdviceFixed s score cp bb = defaultAdvice s score) ∧
    (((generateTradingAdviceFixed s score cp bb).target_price ≠ 0 ∨
      (generateTradingAdviceFixed s score cp bb).stop_loss ≠ 0 ∨
      (generateTradingAdviceFixed s score cp bb).position_size ≠ 0) →
      s.overall = .BUY ∧ confidenceThresholdFixed ≤ score) := by
  refine ⟨?_, ?_, ?_, ?_⟩
  · intro h
    unfold generateTradingAdviceOrig
    rw [if_neg h]
  · intro hnz
    by_contra h
    unfold generateTradingAdviceOrig at hnz
    rw [if_neg h] at hnz
    simp [defaultAdvice] at hnz
  · intro h
    unfold generateTradingAdviceFixed
    rw [if_neg h]
  · intro hnz
    by_contra h
    unfold generateTradingAdviceFixed at hnz
    rw [if_neg h] at hnz
    simp [defaultAdvice] at hnz

/-- A signal set whose overall action is HOLD, for the C7 witness. -/
def sigC7 : SignalSet :=
  { bandSig := none, rsiSig := none, macdSig := none
    volumeSpike := false, momSig := none, overall := .HOLD }

theorem c7_witness :
    generateTradingAdviceOrig sigC7 (9/10) 10 ⟨12, 10, 8⟩ =
      defaultAdvice sigC7 (9/10) ∧
    generateTradingAdviceFixed sigC7 (9/10) 10 ⟨12, 10, 8⟩ =
      defaultAdvice sigC7 (9/10) := by
  obtain ⟨h1, _, h3, _⟩ := c7_advice_gating sigC7 (9/10) 10 ⟨12, 10, 8⟩
  exact ⟨h1 (by simp [sigC7]), h3 (by simp [sigC7])⟩

/-! ## C9 — position size -/

theorem roundHalfEven_nonneg {x : ℚ} (hx : 0 ≤ x) : 0 ≤ roundHalfEven x := by
  unfold roundHalfEven
  have h0 : (0 : ℤ) ≤ ⌊x⌋ := Int.floor_nonneg.mpr hx
  split_ifs <;> omega

theorem roundHalfEven_le {x : ℚ} {n : ℤ} (hx : x ≤ n) :
    roundHalfEven x ≤ n := by
  unfold roundHalfEven
  have hf : ⌊x⌋ ≤ n := by
    have := Int.floor_le_floor hx
    rwa [Int.floor_intCast] at this
  have hfx : (⌊x⌋ : ℚ) ≤ x := Int.floor_le x
  split_ifs with h1 h2 h3
  · exact hf
  · -- 1/2 < x - ⌊x⌋, so ⌊x⌋ + 1/2 < x ≤ n and ⌊x⌋ < n
    have : (⌊x⌋ : ℚ) + 1 / 2 < (n : ℚ) := by linarith
    have : ⌊x⌋ < n := by exact_mod_cast (by linarith : (⌊x⌋ : ℚ) < n)
    omega
  · exact hf
  · have : (⌊x⌋ : ℚ) + 1 / 2 ≤ (n : ℚ) := by linarith
    have : (⌊x⌋ : ℚ) < n := by linarith
    have : ⌊x⌋ < n := by exact_mod_cast this
    omega

theorem pyRound3_bounds {x : ℚ} (h0 : 0 ≤ x) (h1 : x ≤ 1 / 10) :
    0 ≤ pyRound 3 x ∧ pyRound 3 x ≤ 1 / 10 := by
  unfold pyRound
  have hm : ((10 : ℚ) ^ (3 : ℕ)) = 1000 := by norm_num
  simp only [hm]
  have ha : 0 ≤ x * 1000 := by linarith
  have hb : x * 1000 ≤ ((100 : ℤ) : ℚ) := by push_cast; linarith
  have r1 := roundHalfEven_nonneg ha
  have r2 := roundHalfEven_le hb
  constructor
  · apply div_nonneg _ (by norm_num)
    exact_mod_cast r1
  · rw [div_le_iff (by norm_num)]
    have : ((roundHalfEven (x * 1000) : ℚ)) ≤ 100 := by exact_mod_cast r2
    linarith

theorem pyRound3_int (k : ℤ) :
    pyRound 3 ((k : ℚ) / 1000) = (k : ℚ) / 1000 := by
  have hx : ((k : ℚ) / 1000) * (10 : ℚ) ^ (3 : ℕ) = (k : ℚ) := by
    norm_num
  have hr : roundHalfEven ((k : ℚ)) = k := by
    unfold roundHalfEven
    rw [Int.floor_intCast]
    norm_num
  unfold pyRound
  simp only [hx, hr]
  norm_num

/-- C9 (counterexample): the fixed variant's `_calculate_position_size`
rounds to three decimals, so at score 0.5555 it returns 0.056, not
0.1 × 0.5555 = 0.05555 — the claimed equality fails. -/
theorem c9_counterexample :
    positionSizeFixed (5555 / 10000) ≠ maxPositionCfg * (5555 / 10000) := by
  have hval : maxPositionCfg * (5555 / 10000 : ℚ) * (10 : ℚ) ^ (3 : ℕ) =
      1111 / 20 := by norm_num [maxPositionCfg]
  have hf : ⌊(1111 / 20 : ℚ)⌋ = 55 := by
    rw [Int.floor_eq_iff]
    norm_num
  have h2 : positionSizeFixed (5555 / 10000) = 56 / 1000 := by
    unfold positionSizeFixed pyRound
    simp only [hval]
    unfold roundHalfEven
    rw [hf]
    norm_num
  rw [h2]
  norm_num [maxPositionCfg]

/-- C9 (amended): the original variant's position size equals
max_position_ratio × score exactly; the fixed variant returns that
product rounded half-to-even to 3 decimals (which is the identity on
every score the pipeline produces — multiples of 0.01); in both variants
the position size lies in [0, max_position_ratio] for every score in
[0, 1]. -/
theorem c9_position_size_amended (s : ℚ) :
    positionSizeOrig s = maxPositionCfg * s ∧
    (0 ≤ s → s ≤ 1 →
      0 ≤ positionSizeOrig s ∧ positionSizeOrig s ≤ maxPositionCfg ∧
      0 ≤ positionSizeFixed s ∧ positionSizeFixed s ≤ maxPositionCfg) ∧
    ((∃ k : ℤ, s = (k : ℚ) / 100) →
      positionSizeFixed s = maxPositionCfg * s) := by
  refine ⟨rfl, ?_, ?_⟩
  · intro h0 h1
    have hcfg : maxPositionCfg = 1 / 10 := by norm_num [maxPositionCfg]
    have hms0 : 0 ≤ maxPositionCfg * s := by rw [hcfg]; linarith
    have hms1 : maxPositionCfg * s ≤ 1 / 10 := by rw [hcfg]; linarith
    have hb := pyRound3_bounds hms0 hms1
    refine ⟨hms0, by rw [hcfg]; show maxPositionCfg * s ≤ _; rw [hcfg]; linarith,
      hb.1, by rw [hcfg]; exact hb.2⟩
  · rintro ⟨k, rfl⟩
    show pyRound 3 (maxPositionCfg * ((k : ℚ) / 100)) = _
    have h : maxPositionCfg * ((k : ℚ) / 100) = (k : ℚ) / 1000 := by
      norm_num [maxPositionCfg]
      ring
    rw [h]
    exact pyRound3_int k

theorem c9_witness :
    positionSizeOrig (1 / 2) = maxPositionCfg * (1 / 2) ∧
    0 ≤ positionSizeFixed (1 / 2) ∧
    positionSizeFixed (1 / 2) ≤ maxPositionCfg ∧
    positionSizeFixed (1 / 2) = maxPositionCfg * (1 / 2) := by
  obtain ⟨h1, h2, h3⟩ := c9_position_size_amended (1 / 2)
  obtain ⟨_, _, h4, h5⟩ := h2 (by norm_num) (by norm_num)
  exact ⟨h1, h4, h5, h3 ⟨50, by norm_num⟩⟩

/-! ## C5 — zero-variance windows and band position -/

theorem list_sum_nonneg (l : List ℚ) (h : ∀ x ∈ l, 0 ≤ x) : 0 ≤ l.sum := by
  induction l with
  | nil => simp
  | cons a t ih =>
    simp only [List.sum_cons]
    have ha := h a (by simp)
    have ht := ih (fun x hx => h x (by simp [hx]))
    linarith

theorem list_sum_zero_of_nonneg (l : List ℚ) (h : ∀ x ∈ l, 0 ≤ x)
    (hs : l.sum = 0) : ∀ x ∈ l, x = 0 := by
  induction l with
  | nil => simp
  | cons a t ih =>
    simp only [List.sum_cons] at hs
    have ha := h a (by simp)
    have ht := list_sum_nonneg t (fun x hx => h x (by simp [hx]))
    have ha0 : a = 0 := by linarith
    have hts : t.sum = 0 := by linarith
    intro x hx
    rcases List.mem_cons.mp hx with rfl | hx
    · exact ha0
    · exact ih (fun y hy => h y (by simp [hy])) hts x hx

/-- A window whose sample variance vanishes is constant at its mean. -/
theorem sampleVariance_zero_mem (w : List ℚ) (h2 : 2 ≤ w.length)
    (hv : sampleVariance w = 0) : ∀ x ∈ w, x = listMean w := by
  have hden : ((w.length : ℚ) - 1) ≠ 0 := by
    have : (2 : ℚ) ≤ (w.length : ℚ) := by exact_mod_cast h2
    linarith
  unfold sampleVariance at hv
  have hsum : ((w.map (fun x => (x - listMean w) ^ 2)).sum) = 0 := by
    rcases div_eq_zero_iff.mp hv with h | h
    · exact h
    · exact absurd h hden
  intro x hx
  have hx2 : (x - listMean w) ^ 2 = 0 :=
    list_sum_zero_of_nonneg _
      (fun y hy => by
        obtain ⟨z, _, rfl⟩ := List.mem_map.mp hy
        positivity)
      hsum _ (List.mem_map_of_mem _ hx)
  have := pow_eq_zero_iff (n := 2) (by norm_num) |>.mp hx2
  linarith

theorem variance_replicate20 : sampleVariance (List.replicate 20 (1 : ℚ)) = 0 := by
  have hmean : listMean (List.replicate 20 (1 : ℚ)) = 1 := by
    unfold listMean
    rw [List.sum_replicate, List.length_replicate]
    norm_num
  unfold sampleVariance
  rw [hmean, List.map_replicate]
  norm_num [List.sum_replicate]

/-- C5 (counterexample): a zero-variance 20-point window of constant
price 1 makes upper_band = lower_band = 1, and the unguarded division in
`BollingerBands.calculate` yields `bb_position = 0/0 = NaN`, which IS
surfaced to the classifier — it does not resolve to the documented
neutral fallback value 0.5. -/
theorem c5_counterexample :
    sampleVariance (List.replicate 20 (1 : ℚ)) = 0 ∧
    bbPositionF 1 1 1 = FVal.nan ∧
    FVal.nan ≠ FVal.num (1 / 2) := by
  refine ⟨variance_replicate20, ?_, by simp⟩
  unfold bbPositionF FVal.fdiv
  norm_num

/-- C5 (amended): on every series row whose rolling window has zero
variance (hence upper_band = lower_band), `bb_position` is NaN — the
window is constant, its last element equals the mean, and the source
computes 0/0 with no fallback; the classifier receives the NaN, every
band-threshold comparison on it is false, so the row yields no band
signal (treated as neutral) in both variants, and no exception is
raised.  The std hypothesis `s * s = sampleVariance w` pins `s` to the
rolling std; on the claim's zero-variance rows it forces `s = 0`. -/
theorem c5_zero_variance_amended (w : List ℚ) (h2 : 2 ≤ w.length)
    (hne : w ≠ []) (s : ℚ) (hs : s * s = sampleVariance w)
    (hbands : listMean w + 2 * s = listMean w - 2 * s) :
    bbPositionF (w.getLast hne) (listMean w - 2 * s) (listMean w + 2 * s) =
      FVal.nan ∧
    (∀ latest prev : FrameRow, latest.bb_position = FVal.nan →
      (classifyOrig latest prev).bandSig = none ∧
      (classifyFixed latest prev).bandSig = none) := by
  have hs0 : s = 0 := by linarith
  have hv : sampleVariance w = 0 := by rw [← hs, hs0]; ring
  have hall := sampleVariance_zero_mem w h2 hv
  have hlast : w.getLast hne = listMean w := hall _ (List.getLast_mem hne)
  constructor
  · unfold bbPositionF FVal.fdiv
    rw [hs0, hlast]
    norm_num
  · intro latest prev h
    constructor
    · show bandSigOrig latest.bb_position = none
      rw [h]; rfl
    · show bandSigFixed latest.bb_position = none
      rw [h]; rfl

/-- A frame row carrying the NaN band position, as produced by a
zero-variance window. -/
def rowNaN : FrameRow :=
  { close := 1, ma := 1, upper_band := 1, lower_band := 1
    bb_position := FVal.nan, rsi := .num 50, macd := .num 0
    macd_signal := .num 0, volume_ratio := .num 1, price_momentum := .num 0 }

theorem c5_witness :
    bbPositionF ((List.replicate 20 (1 : ℚ)).getLast (by simp))
      (listMean (List.replicate 20 (1 : ℚ)) - 2 * 0)
      (listMean (List.replicate 20 (1 : ℚ)) + 2 * 0) = FVal.nan ∧
    (classifyOrig rowNaN rowNaN).bandSig = none ∧
    (classifyFixed rowNaN rowNaN).bandSig = none := by
  obtain ⟨h1, h2⟩ := c5_zero_variance_amended (List.replicate 20 (1 : ℚ))
    (by simp) (by simp) 0 (by rw [variance_replicate20]; ring) (by ring)
  obtain ⟨ha, hb⟩ := h2 rowNaN rowNaN rfl
  exact ⟨h1, ha, hb⟩

/-! ## Sorting and sum helpers -/

/-- Descending order by composite score, as `list.sort(key=..., reverse=True)`
guarantees for its result. -/
def SortedDesc (l : List ScoredCandidate) : Prop :=
  l.Pairwise (fun a b => b.composite_score ≤ a.composite_score)

theorem mem_insertScoreDesc {a c : ScoredCandidate} {l : List ScoredCandidate} :
    a ∈ insertScoreDesc c l ↔ a = c ∨ a ∈ l := by
  induction l with
  | nil => simp [insertScoreDesc]
  | cons x xs ih =>
    unfold insertScoreDesc
    split_ifs with hlt
    · simp
    · simp only [List.mem_cons, ih]
      tauto

theorem mem_sortScoreDesc {a : ScoredCandidate} {l : List ScoredCandidate} :
    a ∈ sortScoreDesc l ↔ a ∈ l := by
  induction l with
  | nil => simp [sortScoreDesc]
  | cons x xs ih =>
    unfold sortScoreDesc
    rw [mem_insertScoreDesc, ih, List.mem_cons]

theorem sorted_insertScoreDesc {c : ScoredCandidate} {l : List ScoredCandidate}
    (h : l.Pairwise (fun a b => b.composite_score ≤ a.composite_score)) :
    (insertScoreDesc c l).Pairwise
      (fun a b => b.composite_score ≤ a.composite_score) := by
  induction l with
  | nil => simp [insertScoreDesc]
  | cons x xs ih =>
    rw [List.pairwise_cons] at h
    unfold insertScoreDesc
    split_ifs with hlt
    · rw [List.pairwise_cons]
      refine ⟨?_, List.pairwise_cons.mpr h⟩
      intro b hb
      rcases List.mem_cons.mp hb with rfl | hb
      · exact le_of_lt hlt
      · exact le_trans (h.1 b hb) (le_of_lt hlt)
    · rw [List.pairwise_cons]
      refine ⟨?_, ih h.2⟩
      intro b hb
      rcases mem_insertScoreDesc.mp hb with rfl | hb
      · exact le_of_not_lt hlt
      · exact h.1 b hb

theorem sorted_sortScoreDesc (l : List ScoredCandidate) :
    SortedDesc (sortScoreDesc l) := by
  induction l with
  | nil => exact List.Pairwise.nil
  | cons x xs ih => exact sorted_insertScoreDesc ih

theorem sum_mkPosition_weights (sel : List ScoredCandidate)
    (f : ScoredCandidate → ℚ) :
    ((sel.map (fun c => mkPosition (f c) c)).map Position.weight).sum =
      (sel.map f).sum := by
  induction sel with
  | nil => simp
  | cons a xs ih =>
    simp only [List.map_cons, List.sum_cons]
    rw [ih]
    rfl

theorem sum_map_div (sel : List ScoredCandidate) (t : ℚ) :
    (sel.map (fun c => c.composite_score / t)).sum =
      (sel.map (·.composite_score)).sum / t := by
  induction sel with
  | nil => simp
  | cons a xs ih =>
    simp only [List.map_cons, List.sum_cons, ih, add_div]

theorem sum_scores_pos_of_exists (l : List ScoredCandidate)
    (h0 : ∀ c ∈ l, 0 ≤ c.composite_score)
    (hex : ∃ c ∈ l, 0 < c.composite_score) :
    0 < (l.map (·.composite_score)).sum := by
  induction l with
  | nil => obtain ⟨c, hc, _⟩ := hex; exact absurd hc (by simp)
  | cons a xs ih =>
    simp only [List.map_cons, List.sum_cons]
    have hxs : 0 ≤ (xs.map (·.composite_score)).sum :=
      list_sum_nonneg _ (fun y hy => by
        obtain ⟨z, hz, rfl⟩ := List.mem_map.mp hy
        exact h0 z (by simp [hz]))
    obtain ⟨c, hc, hcpos⟩ := hex
    rcases List.mem_cons.mp hc with rfl | hc
    · linarith
    · have := ih (fun y hy => h0 y (by simp [hy])) ⟨c, hc, hcpos⟩
      have ha := h0 a (by simp)
      linarith

/-! ## C3 — portfolio allocation -/

/-- A screened candidate with composite score 0 (unreachable through the
real screening pipeline, but `generate_portfolio_recommendation` is a
public method and the claim quantifies over candidate lists). -/
def candZero : ScoredCandidate :=
  { stock_code := "000000", current_price := 10, bb_position := .num 0.5
    rsi := .num 50, macd_signal_val := .num 0, volume_ratio := .num 1
    signals := sigC7, composite_score := 0
    trading_advice := defaultAdvice sigC7 0 }

/-- C3 (counterexample): on a non-empty candidate list with total score
exactly 0, the original variant's allocator does NOT fall back to the
uniform weight 1/N — its unguarded `weight = score / total_score` raises
ZeroDivisionError. -/
theorem c3_counterexample :
    generatePortfolioRecommendationOrig [candZero] 10 = .zeroDivisionError := by
  unfold generatePortfolioRecommendationOrig
  rw [if_neg (by simp)]
  rw [if_pos]
  constructor
  · simp
  · simp [candZero]

/-- C3 (amended): the allocator takes the first `max_positions` of the
screened list (which IS the top of it, since `screen_stocks` sorts
descending by score) and weights each by score / total; the weights sum
to 1 whenever the scores are non-negative with at least one positive;
when the total score is exactly 0 on a non-empty selection the FIXED
variant falls back to the uniform weight 1/N while the ORIGINAL variant
raises ZeroDivisionError; an empty candidate list yields the empty dict
(original) / a zero-position allocation (fixed). -/
theorem c3_allocator_amended (screened : List ScoredCandidate) (maxp : ℕ)
    (sel : List ScoredCandidate) (total : ℚ)
    (hsel : sel = screened.take maxp)
    (htot : total = (sel.map (·.composite_score)).sum) :
    (screened = [] →
      generatePortfolioRecommendationOrig screened maxp = .empty ∧
      generatePortfolioRecommendationFixed screened maxp =
        { positions := [], total_positions := 0 }) ∧
    (screened ≠ [] → total ≠ 0 →
      generatePortfolioRecommendationOrig screened maxp = .portfolio
        { total_positions := sel.length
          total_score := total
          positions := sel.map (fun c =>
            mkPosition (c.composite_score / total) c) } ∧
      ((sel.map (fun c => mkPosition (c.composite_score / total) c)).map
        Position.weight).sum = 1) ∧
    (screened ≠ [] →
      (generatePortfolioRecommendationFixed screened maxp).positions =
        sel.map (fun c => mkPosition
          (if 0 < total then c.composite_score / total
           else 1 / (sel.length : ℚ)) c)) ∧
    (screened ≠ [] → (∀ c ∈ sel, 0 ≤ c.composite_score) →
      (∃ c ∈ sel, 0 < c.composite_score) →
      (((generatePortfolioRecommendationFixed screened maxp).positions.map
        Position.weight).sum = 1)) ∧
    (screened ≠ [] → sel ≠ [] → total = 0 →
      generatePortfolioRecommendationOrig screened maxp = .zeroDivisionError ∧
      ∀ p ∈ (generatePortfolioRecommendationFixed screened maxp).positions,
        p.weight = 1 / (sel.length : ℚ)) ∧
    (SortedDesc screened →
      ∀ a ∈ sel, ∀ b ∈ screened.drop maxp,
        b.composite_score ≤ a.composite_score) ∧
    (∀ engine stocks, SortedDesc (screenStocksOrig engine stocks)) := by
  subst hsel
  subst htot
  have hfixedpos : screened ≠ [] →
      (generatePortfolioRecommendationFixed screened maxp).positions =
        (screened.take maxp).map (fun c => mkPosition
          (if 0 < ((screened.take maxp).map (·.composite_score)).sum
           then c.composite_score /
             ((screened.take maxp).map (·.composite_score)).sum
           else 1 / ((screened.take maxp).length : ℚ)) c) := by
    intro hne
    unfold generatePortfolioRecommendationFixed
    rw [if_neg hne]
  refine ⟨?_, ?_, hfixedpos, ?_, ?_, ?_, ?_⟩
  · intro h
    subst h
    exact ⟨rfl, rfl⟩
  · intro hne htz
    constructor
    · unfold generatePortfolioRecommendationOrig
      rw [if_neg hne, if_neg (by
        rintro ⟨_, h0⟩
        exact htz h0)]
    · rw [sum_mkPosition_weights, sum_map_div, div_self htz]
  · intro hne h0 hex
    rw [hfixedpos hne, sum_mkPosition_weights]
    have hpos := sum_scores_pos_of_exists _ h0 hex
    simp only [if_pos hpos]
    rw [sum_map_div, div_self (ne_of_gt hpos)]
  · intro hne hselne htz
    constructor
    · unfold generatePortfolioRecommendationOrig
      rw [if_neg hne, if_pos ⟨hselne, htz⟩]
    · intro p hp
      rw [hfixedpos hne] at hp
      obtain ⟨c, _, rfl⟩ := List.mem_map.mp hp
      rw [if_neg (by rw [htz]; exact lt_irrefl 0)]
      rfl
  · intro hsort a ha b hb
    have hglue : (screened.take maxp ++ screened.drop maxp).Pairwise
        (fun a b => b.composite_score ≤ a.composite_score) := by
      rwa [List.take_append_drop]
    exact (List.pairwise_append.mp hglue).2.2 a ha b hb
  · intro engine stocks
    exact sorted_sortScoreDesc _

def candA : ScoredCandidate :=
  { candZero with stock_code := "000001", composite_score := 4 / 5 }

def candB : ScoredCandidate :=
  { candZero with stock_code := "000002", composite_score := 7 / 10 }

theorem c3_witness :
    generatePortfolioRecommendationOrig [candA, candB] 10 = .portfolio
      { total_positions := ([candA, candB].take 10).length
        total_score := (([candA, candB].take 10).map (·.composite_score)).sum
        positions := ([candA, candB].take 10).map (fun c =>
          mkPosition (c.composite_score /
            (([candA, candB].take 10).map (·.composite_score)).sum) c) } ∧
    (((generatePortfolioRecommendationFixed [candA, candB] 10).positions.map
      Position.weight).sum = 1) := by
  obtain ⟨_, h2, _, h4, _, _, _⟩ :=
    c3_allocator_amended [candA, candB] 10 ([candA, candB].take 10)
      ((([candA, candB].take 10).map (·.composite_score)).sum) rfl rfl
  refine ⟨(h2 (by simp) ?_).1, h4 (by simp) ?_ ?_⟩
  · norm_num [candA, candB, candZero]
  · intro c hc
    simp only [List.take, List.mem_cons, List.not_mem_nil, or_false] at hc
    rcases hc with rfl | rfl <;> norm_num [candA, candB, candZero]
  · refine ⟨candA, by simp, by norm_num [candA, candZero]⟩

/-! ## C8 — score floor through the screening pipeline -/

/-- Every candidate `analyze_stock` (original) emits carries the composite
score of its own signal set. -/
theorem analyzeStockOrig_score (engine : List PriceRow → List FrameRow)
    (code : String) (data : List PriceRow) (a : ScoredCandidate)
    (h : analyzeStockOrig engine code data = some a) :
    a.composite_score = compositeScore a.signals := by
  simp only [analyzeStockOrig] at h
  split at h
  · exact absurd h (by simp)
  · split at h
    · exact absurd h (by simp)
    · split at h
      · have := Option.some.inj h
        subst this
        rfl
      · exact absurd h (by simp)

theorem mem_screenCollectOrig (engine : List PriceRow → List FrameRow)
    (stocks : List (String × List PriceRow)) (c : ScoredCandidate)
    (h : c ∈ screenCollectOrig engine stocks) :
    ∃ code data, analyzeStockOrig engine code data = some c ∧
      c.trading_advice.action = .BUY ∧
      confidenceThresholdOrig ≤ c.composite_score := by
  induction stocks with
  | nil => exact absurd h (by simp [screenCollectOrig])
  | cons head rest ih =>
    obtain ⟨code, data⟩ := head
    unfold screenCollectOrig at h
    rcases ha : analyzeStockOrig engine code data with _ | a
    · rw [ha] at h
      exact ih h
    · rw [ha] at h
      replace h : c ∈ (if a.trading_advice.action = .BUY ∧
          confidenceThresholdOrig ≤ a.composite_score
        then a :: screenCollectOrig engine rest
        else screenCollectOrig engine rest) := h
      split_ifs at h with hcond
      · rcases List.mem_cons.mp h with rfl | hmem
        · exact ⟨code, data, ha, hcond.1, hcond.2⟩
        · exact ih hmem
      · exact ih h

/-- C8: the composite score never drops below the 0.5 base, so every
candidate emitted by the original `screen_stocks` has score ≥ 0.5, every
non-empty selection from its output has strictly positive total score,
and the original allocator can never reach its unguarded zero-total
division when fed from the screening pipeline. -/
theorem c8_score_floor :
    (∀ s : SignalSet, 0.5 ≤ compositeScore s) ∧
    (∀ engine stocks c, c ∈ screenStocksOrig engine stocks →
      0.5 ≤ c.composite_score) ∧
    (∀ engine stocks maxp,
      (screenStocksOrig engine stocks).take maxp ≠ [] →
      0 < (((screenStocksOrig engine stocks).take maxp).map
        (·.composite_score)).sum) ∧
    (∀ engine stocks maxp,
      generatePortfolioRecommendationOrig (screenStocksOrig engine stocks)
        maxp ≠ .zeroDivisionError) := by
  have hmem : ∀ engine stocks (c : ScoredCandidate),
      c ∈ screenStocksOrig engine stocks → 0.5 ≤ c.composite_score := by
    intro engine stocks c hc
    unfold screenStocksOrig at hc
    obtain ⟨code, data, ha, _, _⟩ :=
      mem_screenCollectOrig engine stocks c (mem_sortScoreDesc.mp hc)
    rw [analyzeStockOrig_score engine code data c ha]
    exact compositeScore_ge_half _
  have hsum : ∀ engine stocks (maxp : ℕ),
      (screenStocksOrig engine stocks).take maxp ≠ [] →
      0 < (((screenStocksOrig engine stocks).take maxp).map
        (·.composite_score)).sum := by
    intro engine stocks maxp hne
    rcases hsel : (screenStocksOrig engine stocks).take maxp with _ | ⟨a, rest⟩
    · exact absurd hsel hne
    · have hsub : ∀ x ∈ a :: rest, (0.5 : ℚ) ≤ x.composite_score := by
        intro x hx
        have hx' : x ∈ (screenStocksOrig engine stocks).take maxp := by
          rw [hsel]; exact hx
        exact hmem engine stocks x (List.mem_of_mem_take hx')
      simp only [List.map_cons, List.sum_cons]
      have ha := hsub a (by simp)
      have hrest : 0 ≤ (rest.map (·.composite_score)).sum :=
        list_sum_nonneg _ (fun y hy => by
          obtain ⟨z, hz, rfl⟩ := List.mem_map.mp hy
          have := hsub z (by simp [hz])
          linarith)
      norm_num at ha ⊢
      linarith
  refine ⟨compositeScore_ge_half, hmem, hsum, ?_⟩
  intro engine stocks maxp
  simp only [generatePortfolioRecommendationOrig]
  split_ifs with h1 h2
  · simp
  · obtain ⟨hselne, htz⟩ := h2
    have := hsum engine stocks maxp hselne
    rw [htz] at this
    exact absurd this (lt_irrefl 0)
  · simp

/-! Witness pipeline for C8: one stock, 50 price rows, an engine that
produces a single strongly-oversold frame row. -/

def rowBuy : FrameRow :=
  { close := 10, ma := 10, upper_band := 12, lower_band := 8
    bb_position := .num (1 / 20), rsi := .num 50, macd := .num 0
    macd_signal := .num 0, volume_ratio := .num 0, price_momentum := .num 0 }

def engineW : List PriceRow → List FrameRow := fun _ => [rowBuy]

def dataW : List PriceRow := List.replicate 50 ⟨10, 0⟩

def stocksW : List (String × List PriceRow) := [("000001", dataW)]

def sigW : SignalSet :=
  { bandSig := some .strongOversold, rsiSig := none, macdSig := none
    volumeSpike := false, momSig := none, overall := .BUY }

def adviceW : Advice :=
  { action := .BUY, confidence := 4 / 5, target_price := 21 / 2
    stop_loss := 44 / 5, position_size := 2 / 25
    holding_period := .long, risk_level := .high, reasoning := ["强烈超跌"] }

def candW : ScoredCandidate :=
  { stock_code := "000001", current_price := 10, bb_position := .num (1 / 20)
    rsi := .num 50, macd_signal_val := .num 0, volume_ratio := .num 0
    signals := sigW, composite_score := 4 / 5, trading_advice := adviceW }

theorem classify_rowBuy : classifyOrig rowBuy rowBuy = sigW := by
  have hband : bandSigOrig rowBuy.bb_position = some .strongOversold := by
    unfold bandSigOrig rowBuy
    rw [if_pos (by norm_num [FVal.le])]
  have hrsi : rsiSigOrig rowBuy.rsi = none := by
    unfold rsiSigOrig rowBuy
    rw [if_neg (by norm_num [FVal.le]), if_neg (by norm_num [FVal.le])]
  have hmacd : macdCrossSig rowBuy rowBuy = none := macdCrossSig_self rowBuy
  have hvol : volumeSpikeOrig rowBuy.volume_ratio = false := by
    unfold volumeSpikeOrig rowBuy
    norm_num [FVal.le]
  have hmom : momSigOrig rowBuy.price_momentum = none := by
    unfold momSigOrig rowBuy
    rw [if_neg (by norm_num [FVal.lt]), if_neg (by norm_num [FVal.lt])]
  unfold classifyOrig
  rw [hband, hrsi, hmacd, hvol, hmom]
  rfl

theorem score_sigW : compositeScore sigW = 4 / 5 := by
  simp [compositeScore, sigW]
  norm_num [min_def]

theorem advice_sigW :
    generateTradingAdviceOrig sigW (4 / 5) 10 ⟨12, 10, 8⟩ = adviceW := by
  have hrisk : assessRiskLevel sigW = .high := rfl
  have hhold : estimateHoldingPeriod sigW = .long := rfl
  have hreason : reasoningOf sigW = ["强烈超跌"] := rfl
  unfold generateTradingAdviceOrig
  rw [if_pos (And.intro (show sigW.overall = Overall.BUY from rfl)
    (by norm_num [confidenceThresholdOrig]))]
  rw [hrisk, hhold, hreason]
  norm_num [defaultAdvice, targetPriceOrig, stopLossOrig, positionSizeOrig,
    maxPositionCfg, adviceW, sigW, FVal.fdiv, FVal.le]

theorem analyze_candW :
    analyzeStockOrig engineW "000001" dataW = some candW := by
  unfold analyzeStockOrig
  rw [if_neg (by simp [dataW])]
  simp only [engineW]
  rw [if_neg (by simp)]
  have hsig : analyzeSignalsOrig [rowBuy] = some sigW := by
    rw [show analyzeSignalsOrig [rowBuy] =
      some (classifyOrig rowBuy rowBuy) from rfl, classify_rowBuy]
  rw [hsig, show ([rowBuy] : List FrameRow).getLast? = some rowBuy from rfl]
  show some
      { stock_code := "000001", current_price := rowBuy.close
        bb_position := rowBuy.bb_position, rsi := rowBuy.rsi
        macd_signal_val := rowBuy.macd_signal
        volume_ratio := rowBuy.volume_ratio, signals := sigW
        composite_score := compositeScore sigW
        trading_advice := generateTradingAdviceOrig sigW (compositeScore sigW)
          rowBuy.close ⟨rowBuy.upper_band, rowBuy.ma, rowBuy.lower_band⟩ }
    = some candW
  rw [score_sigW]
  rw [show rowBuy.close = 10 from rfl, show rowBuy.upper_band = 12 from rfl,
    show rowBuy.ma = 10 from rfl, show rowBuy.lower_band = 8 from rfl]
  rw [advice_sigW]
  rfl

theorem screen_candW : screenStocksOrig engineW stocksW = [candW] := by
  have h1 : screenCollectOrig engineW stocksW = [candW] := by
    show (match analyzeStockOrig engineW "000001" dataW with
      | none => screenCollectOrig engineW []
      | some a =>
        if a.trading_advice.action = .BUY ∧
            confidenceThresholdOrig ≤ a.composite_score
        then a :: screenCollectOrig engineW []
        else screenCollectOrig engineW []) = [candW]
    rw [analyze_candW]
    show (if candW.trading_advice.action = Overall.BUY ∧
        confidenceThresholdOrig ≤ candW.composite_score
      then candW :: screenCollectOrig engineW []
      else screenCollectOrig engineW []) = [candW]
    rw [if_pos ⟨rfl, by norm_num [candW, confidenceThresholdOrig]⟩]
    rfl
  unfold screenStocksOrig
  rw [h1]
  rfl

theorem c8_witness :
    (0.5 : ℚ) ≤ candW.composite_score ∧
    0 < (((screenStocksOrig engineW stocksW).take 10).map
      (·.composite_score)).sum := by
  obtain ⟨_, h2, h3, _⟩ := c8_score_floor
  refine ⟨h2 engineW stocksW candW ?_, h3 engineW stocksW 10 ?_⟩
  · rw [screen_candW]
    simp
  · rw [screen_candW]
    simp

end StockPicker
